import Mathlib

/-!
Verification development for the concurrent crawl-and-transfer engine in
`ftp_downloader.py`.

The Python program's shared mutable state (the `stats` dictionary guarded by
`stats['lock']`, the download queue, the GUI-side failure bookkeeping) is
embedded as the structure `Sys` below.  Every lock-protected region of the
source that touches this state is modelled as one atomic operation (`Op`),
and an execution is a list of operations applied in sequence; interleavings
of the worker, scanner and retry threads correspond to orderings of these
atomic steps.  Paths and messages are `List Char` (Python `str`).

The completion monitor, the per-run directory dedup and the scanner
termination protocol are modelled separately, each from its own code region.
-/

/-- Shorthand: the character list of a string literal. -/
def pc (s : String) : List Char := s.data

/-- `strPre a b` iff `a` is a leading segment of `b` (Python `str.startswith`). -/
def strPre : List Char → List Char → Bool
  | [], _ => true
  | _ :: _, [] => false
  | a :: as, b :: bs => a == b && strPre as bs

/-- `strHas a b` iff `a` occurs contiguously in `b` (Python `in` on strings). -/
def strHas (a : List Char) : List Char → Bool
  | [] => strPre a []
  | b :: bs => strPre a (b :: bs) || strHas a bs

/-- Python `str.lstrip('/')`: drop all leading slashes. -/
def lstripSlash (cs : List Char) : List Char := cs.dropWhile (fun c => c == '/')

/-- Python `s.split(':')[0]`: the segment before the first colon. -/
def firstSeg (cs : List Char) : List Char := cs.takeWhile (fun c => !(c == ':'))

/-- POSIX `os.path.join` for two components: an absolute second component wins,
an empty or slash-terminated first component is concatenated directly,
otherwise a single separator is inserted. -/
def pjoin (a b : List Char) : List Char :=
  if strPre ['/'] b then b
  else if a = [] then b
  else if a.getLast? = some '/' then a ++ b
  else a ++ '/' :: b

/-- `ftp_downloader.py` lines 1636–1639: the relative part used by the ftputil
scanner is the remote path with only its single leading slash removed
(`remote_path[1:] if remote_path.startswith('/') else remote_path`). -/
def scanLocalRel (p : List Char) : List Char :=
  if strPre ['/'] p then p.tail else p

/-- Lines 1635–1641: local destination computed by the ftputil scanner,
`os.path.join(local_dir, rel_path)`. -/
def scanLocalPath (d p : List Char) : List Char := pjoin d (scanLocalRel p)

/-- Lines 2733–2738 (`_start_parallel_downloads_with_scan`): local destination
computed by stripping the configured remote base when it is a prefix, then
stripping leading slashes, then joining. -/
def wsLocalPath (d base p : List Char) : List Char :=
  if strPre base p then pjoin d (lstripSlash (p.drop base.length))
  else pjoin d (lstripSlash p)

/-- Follows the spec's words (refinement reference): "the local destination is
computed by stripping the configured remote base prefix from the remote path
and joining the remaining relative path onto the local root". -/
def specLocalPath (d base p : List Char) : List Char :=
  if strPre base p then pjoin d (lstripSlash (p.drop base.length))
  else pjoin d (lstripSlash p)

/-- Python `str.upper`, ASCII (the needles matched against are ASCII). -/
def pyUpper (cs : List Char) : List Char := cs.map Char.toUpper

/-- Python `str.lower`, ASCII. -/
def pyLower (cs : List Char) : List Char := cs.map Char.toLower

/-- Line 178: `'200' in error_msg and ('TYPE' in error_msg.upper() or 'binary'
in error_msg.lower())` — the disguised-success classifier of the transfer
worker's exception handler. -/
def isDisguisedSuccess (msg : List Char) : Bool :=
  strHas (pc "200") msg &&
    (strHas (pc "TYPE") (pyUpper msg) || strHas (pc "binary") (pyLower msg))

/-- Line 193: error log entries are formatted `f"{remote_path}: {error_msg}"`. -/
def errString (p msg : List Char) : List Char := p ++ pc ": " ++ msg

/-- The shared mutable state of one crawl session: the counter and set fields
of the `stats` dictionary (lines 488–501 plus the lazily-created
`downloaded_paths` / `downloading_paths` sets), the transfer queue of
`(remote, local)` tasks, the scanner-side `file_list`, the GUI-side failure
tracking (`failedList` is the `failed_downloads` list, `failedDict` the
`failed_downloads_dict`; the success-path cleanup of this tracking at lines
1956–1961 is a GUI step no claim depends on and is not modelled), and the
environment fact of which remote paths currently have a non-empty local file
(`localNonempty`); `localDir` is the configured local root.  `pendingCount`
is a ghost counter of scanner iterations that have executed the
`download_queue.put` of line 1653 but not yet reached the `total` increment
of line 1681 — these sit in different lock regions, so other operations can
interleave between them.  Python sets are lists without duplicates. -/
structure Sys where
  total : Nat
  completed : Nat
  success : Nat
  failed : Nat
  totalSize : Nat
  queuedFiles : Nat
  pendingCount : Nat
  downloaded : List (List Char)
  downloading : List (List Char)
  queue : List (List Char × List Char)
  fileList : List (List Char)
  errors : List (List Char)
  failedList : List (List Char)
  failedDict : List (List Char × List Char)
  localNonempty : List (List Char)
  localDir : List Char
deriving DecidableEq

/-- Python `set.add`: insert if absent. -/
def addPath (p : List Char) (l : List (List Char)) : List (List Char) :=
  if p ∈ l then l else p :: l

/-- Remove the first task for remote path `p` from the queue, returning its
local path and the remaining queue (a worker dequeuing that task). -/
def takeTask (p : List Char) :
    List (List Char × List Char) → Option (List Char × List (List Char × List Char))
  | [] => none
  | t :: ts =>
    if t.1 = p then some (t.2, ts)
    else
      match takeTask p ts with
      | none => none
      | some (lp, ts') => some (lp, t :: ts')

/-- Lines 162–167 (also 180–184): on success the worker, under the stats lock,
discards the path from `downloading_paths`, adds it to `downloaded_paths`, and
increments `completed` and `success`. -/
def markSucceeded (p : List Char) (s : Sys) : Sys :=
  { s with downloading := s.downloading.erase p,
           downloaded := addPath p s.downloaded,
           completed := s.completed + 1,
           success := s.success + 1 }

/-- Lines 1976–1986: on a "Failed" status the GUI, guarded by membership of
the path in the `failed_downloads` *list*, appends the path to that list and
sets `failed_downloads_dict[remote_path] = local_path` (the local path is
recomputed by stripping the leading slash and joining onto the local root).
Returns the updated (list, dict) pair. -/
def addFailed (p lp : List Char) (fl : List (List Char))
    (d : List (List Char × List Char)) :
    List (List Char) × List (List Char × List Char) :=
  if p ∈ fl then (fl, d) else (fl ++ [p], d ++ [(p, lp)])

/-- Lines 2098–2100: if the retried path occurs as `err.split(':')[0]` of some
error entry, drop every entry that starts with `f"{remote_path}:"`. -/
def retryErrFilter (p : List Char) (errs : List (List Char)) : List (List Char) :=
  if errs.any (fun e => firstSeg e == p) then
    errs.filter (fun e => !(strPre (p ++ [':']) e))
  else errs

/-- Lines 2054–2100, loop body of `retry_failed_downloads` for one dict entry:
remove the path from the `failed_downloads` list (lines 2057–2058),
re-enqueue the task, bump `queued_files`, discard the path from
`downloaded_paths`, and filter its stale error records. -/
def retryStep (s : Sys) (t : List Char × List Char) : Sys :=
  { s with queue := s.queue ++ [t],
           queuedFiles := s.queuedFiles + 1,
           downloaded := s.downloaded.erase t.1,
           failedList := s.failedList.erase t.1,
           errors := retryErrFilter t.1 s.errors }

/-- The atomic operations on `Sys`, one per lock-protected region (or
per uninterruptible GUI callback) of the source. -/
inductive Op where
  /-- Lines 1620–1677: the ftputil scanner handling one discovered file, up to
  and including the enqueue: skip when downloaded/downloading, skip when
  already listed, mark pre-existing local files downloaded (and `continue`,
  lines 1643–1650), otherwise `download_queue.put` (line 1653), bump
  `queued_files` and append to `file_list`.  The `total`/`total_size`
  increment of lines 1680–1683 is a *separate* lock region, modelled by
  `scanCount`; the ghost `pendingCount` records that it is still owed. -/
  | scanEnqueue (p : List Char)
  /-- Lines 1680–1683: the same scanner iteration later increments `total`
  and `total_size` under the stats lock.  Enabled only while some iteration
  is between its enqueue and its count (`pendingCount > 0`). -/
  | scanCount (sz : Nat)
  /-- Lines 112–126: a worker dequeues a task whose local file exists with
  non-zero size and takes the skip branch. -/
  | wSkipTask (p : List Char)
  /-- Lines 128–147: a worker dequeues a task with no local file and performs
  the check-and-insert into `downloading_paths` under the stats lock. -/
  | wClaimTask (p : List Char)
  /-- During `_download_file` the worker creates the local file and streams
  bytes into it, so the local destination becomes non-empty. -/
  | wStream (p : List Char)
  /-- Lines 162–167: the claimed transfer finishes successfully. -/
  | wSuccess (p : List Char)
  /-- Lines 173–198: the claimed transfer raises; the message is classified as
  disguised success or real failure (which also populates the GUI failed
  dict, lines 1977–1986). -/
  | wFail (p msg : List Char)
  /-- Lines 943–982 (`_retry_selected_file`): unconditionally re-enqueue the
  selected path and drop it from the failed dict. -/
  | retrySel (p : List Char)
  /-- Lines 2054–2111 (`retry_failed_downloads`): retry every failed path and
  then set `failed = max(0, failed - retry_count)`. -/
  | retryAll
deriving DecidableEq

/-- Apply one atomic operation; an operation whose enabling condition fails
(no matching task, path not claimed, …) leaves the state unchanged. -/
def applyOp (s : Sys) : Op → Sys
  | Op.scanEnqueue p =>
    if p ∈ s.downloaded ∨ p ∈ s.downloading then s
    else if p ∈ s.fileList then s
    else if p ∈ s.localNonempty then { s with downloaded := addPath p s.downloaded }
    else { s with queue := s.queue ++ [(p, scanLocalPath s.localDir p)],
                  queuedFiles := s.queuedFiles + 1,
                  fileList := s.fileList ++ [p],
                  pendingCount := s.pendingCount + 1 }
  | Op.scanCount sz =>
    if 0 < s.pendingCount then
      { s with total := s.total + 1,
               totalSize := s.totalSize + sz,
               pendingCount := s.pendingCount - 1 }
    else s
  | Op.wSkipTask p =>
    match takeTask p s.queue with
    | some (_, q') =>
      if p ∈ s.localNonempty then
        if p ∈ s.downloaded then { s with queue := q' }
        else { s with queue := q',
                      downloaded := p :: s.downloaded,
                      completed := s.completed + 1,
                      success := s.success + 1 }
      else s
    | none => s
  | Op.wClaimTask p =>
    match takeTask p s.queue with
    | some (_, q') =>
      if p ∈ s.localNonempty then s
      else if p ∈ s.downloaded ∨ p ∈ s.downloading then { s with queue := q' }
      else { s with queue := q', downloading := p :: s.downloading }
    | none => s
  | Op.wStream p =>
    if p ∈ s.downloading then { s with localNonempty := addPath p s.localNonempty } else s
  | Op.wSuccess p =>
    if p ∈ s.downloading then markSucceeded p s else s
  | Op.wFail p msg =>
    if p ∈ s.downloading then
      if isDisguisedSuccess msg then markSucceeded p s
      else { s with downloading := s.downloading.erase p,
                    completed := s.completed + 1,
                    failed := s.failed + 1,
                    errors := s.errors ++ [errString p msg],
                    failedList :=
                      (addFailed p (scanLocalPath s.localDir p) s.failedList s.failedDict).1,
                    failedDict :=
                      (addFailed p (scanLocalPath s.localDir p) s.failedList s.failedDict).2 }
    else s
  | Op.retrySel p =>
    let lp :=
      match s.failedDict.find? (fun t => t.1 == p) with
      | some t => t.2
      | none => scanLocalPath s.localDir p
    { s with queue := s.queue ++ [(p, lp)],
             queuedFiles := s.queuedFiles + 1,
             failedDict := s.failedDict.filter (fun t => !(t.1 == p)) }
  | Op.retryAll =>
    let k := s.failedDict.length
    let s' := s.failedDict.foldl retryStep s
    { s' with failed := s'.failed - k, failedDict := [] }

/-- Run a sequence of atomic operations. -/
def applyOps (ops : List Op) (s : Sys) : Sys := ops.foldl applyOp s

/-- Fresh session state (`_start_parallel_downloads` reset, lines 2437–2455):
all counters zero, all tracking empty; `pre` is the set of remote paths whose
local destinations already exist non-empty, `dir` the local root. -/
def initSys (dir : List Char) (pre : List (List Char)) : Sys :=
  { total := 0, completed := 0, success := 0, failed := 0, totalSize := 0,
    queuedFiles := 0, pendingCount := 0, downloaded := [], downloading := [],
    queue := [], fileList := [], errors := [], failedList := [],
    failedDict := [], localNonempty := pre, localDir := dir }

/-- The dedup invariant of C1: no path is simultaneously downloading and
downloaded, and `downloading_paths` behaves as a set. -/
def DisjInv (s : Sys) : Prop :=
  s.downloading.Nodup ∧ ∀ p ∈ s.downloading, p ∉ s.downloaded

instance (s : Sys) : Decidable (DisjInv s) := by
  unfold DisjInv
  exact inferInstance

/-- Side condition singling out the one unguarded operation: the worker's
pre-existing-file branch for `p` is only known safe when `p` is not currently
in `downloading_paths`. -/
def skipSafeB (op : Op) (s : Sys) : Bool :=
  match op with
  | Op.wSkipTask p => !(decide (p ∈ s.downloading))
  | _ => true

/-- The count invariant of C2, strengthened with the in-flight bookkeeping
that makes it inductive: every queued or claimed task was either already
counted in `total` or belongs to a scanner iteration that is still between
its `queue.put` (line 1653) and its `total` increment (line 1681), tracked by
the ghost `pendingCount`.  At any observation with `pendingCount = 0` (no
scanner inside that window, in particular whenever scanning is quiescent)
this yields `completed ≤ total`. -/
def CountOk (s : Sys) : Prop :=
  s.completed = s.success + s.failed ∧
  s.completed + s.queue.length + s.downloading.length ≤ s.total + s.pendingCount

instance (s : Sys) : Decidable (CountOk s) := by
  unfold CountOk
  exact inferInstance

/-- Whether an operation belongs to the retry coordinator. -/
def isRetryOp : Op → Bool
  | Op.retrySel _ => true
  | Op.retryAll => true
  | _ => false

/-- One observation of the pipeline by the polling completion monitor. -/
structure Obs where
  scannerDone : Bool
  queueEmptyFlag : Bool
  queueSize : Nat
  allDone : Bool
  downloadingCount : Nat
  total : Nat
  completed : Nat
deriving DecidableEq

/-- Lines 2155–2161, first `update_progress` definition: the quiet predicate
(scanner done, queue empty and of size zero, workers done, nothing
downloading, `total > 0`, `completed >= total`). -/
def isCompleteV1 (o : Obs) : Bool :=
  o.scannerDone && o.queueEmptyFlag && (o.queueSize == 0) && o.allDone &&
    (o.downloadingCount == 0) && decide (0 < o.total) && decide (o.total ≤ o.completed)

/-- Line 2852, second `update_progress` definition — the one Python actually
uses, since the later method definition shadows the earlier one: completion is
declared as soon as `completed >= total and total > 0`. -/
def isCompleteV2 (o : Obs) : Bool :=
  decide (o.total ≤ o.completed) && decide (0 < o.total)

/-- Lines 2232–2248, first definition's debounce: a quiet tick increments the
consecutive-checks counter and enters final verification once it reaches 5;
any unquiet tick resets the counter to 0.  Returns the new counter and whether
final verification was entered. -/
def tickV1 (o : Obs) (counter : Nat) : Nat × Bool :=
  if isCompleteV1 o then (counter + 1, decide (5 ≤ counter + 1)) else (0, false)

/-- Build the monitor's observation from a `Sys` state plus the thread-level
facts it polls (scanner-done flag and worker liveness). -/
def obsOf (s : Sys) (scannerDone allDone : Bool) : Obs :=
  { scannerDone := scannerDone, queueEmptyFlag := s.queue.isEmpty,
    queueSize := s.queue.length, allDone := allDone,
    downloadingCount := s.downloading.length, total := s.total,
    completed := s.completed }

/-- State of the per-run directory dedup (lines 512–513, 1564–1570): the
shared `scanned_dirs` set plus a ghost log of directories actually listed. -/
structure ScanSt where
  scanned : List (List Char)
  listedLog : List (List Char)

/-- Lines 1564–1570: under `scanned_dirs_lock`, return without listing when
the directory is already present, otherwise insert it and proceed to list it
(the ghost log records the listing, most recent first). -/
def scanDirStep (st : ScanSt) (d : List Char) : ScanSt :=
  if d ∈ st.scanned then st
  else { scanned := d :: st.scanned, listedLog := d :: st.listedLog }

/-- An interleaving of directory-handling steps by any number of scanners. -/
def runScanDirs (ds : List (List Char)) : ScanSt :=
  ds.foldl scanDirStep { scanned := [], listedLog := [] }

/-- State of the scanner termination protocol (lines 2535–2536, 2594–2620):
`count` is `scanner_count` (a Python int, so it may go negative), `done` the
`scanner_done` flag, `pills` the number of sentinels put on the transfer
queue, and `flagSets` a ghost counter of how many times the terminal block
(set flag, emit pills) executed. -/
structure ScPro where
  count : Int
  done : Bool
  pills : Nat
  flagSets : Nat
deriving DecidableEq

/-- The two lock-protected steps of one scanner thread: registration
(line 2535–2536, `scanner_count += 1` after connecting) and exit
(lines 2594–2604 and the identical error path 2613–2620): decrement, and when
the result is zero set the flag and enqueue one sentinel per transfer
worker (`m`). -/
inductive ScOp where
  | reg
  | exitScan
deriving DecidableEq

/-- Apply one scanner-protocol step with transfer-pool size `m`. -/
def applyScOp (m : Nat) (s : ScPro) : ScOp → ScPro
  | ScOp.reg => { s with count := s.count + 1 }
  | ScOp.exitScan =>
    if s.count - 1 = 0 then
      { count := s.count - 1, done := true, pills := s.pills + m,
        flagSets := s.flagSets + 1 }
    else { s with count := s.count - 1 }

/-- Run a sequence of scanner-protocol steps. -/
def runScOps (m : Nat) (ops : List ScOp) (s : ScPro) : ScPro :=
  ops.foldl (applyScOp m) s

/-- Protocol state with `n` scanners registered and nothing emitted yet. -/
def scInit (n : Nat) : ScPro :=
  { count := (n : Int), done := false, pills := 0, flagSets := 0 }

/-- C1 scenario: a file is discovered and queued (enqueue then count), claimed
by worker 1, which creates and starts filling the local file;
`_retry_selected_file` re-enqueues the same path; worker 2 dequeues the
duplicate task, sees the non-empty local file and takes the pre-existing
branch. -/
def c1Trace : List Op :=
  [Op.scanEnqueue (pc "/m/f"), Op.scanCount 9, Op.wClaimTask (pc "/m/f"),
   Op.wStream (pc "/m/f"), Op.retrySel (pc "/m/f"), Op.wSkipTask (pc "/m/f")]

/-- C2 scenario (retry half): one file is discovered and counted, claimed,
fails with a real error; the run ends and all failed downloads are retried. -/
def c2Trace : List Op :=
  [Op.scanEnqueue (pc "/m/g"), Op.scanCount 7, Op.wClaimTask (pc "/m/g"),
   Op.wFail (pc "/m/g") (pc "boom"), Op.retryAll]

/-- C2 scenario (discovery-window half, no retry anywhere): a scanner executes
the `queue.put` of line 1653; before its `total` increment at line 1681 runs,
a worker dequeues, claims and completes the file. -/
def c2WindowTrace : List Op :=
  [Op.scanEnqueue (pc "/m/w"), Op.wClaimTask (pc "/m/w"), Op.wSuccess (pc "/m/w")]

/-- C5 scenario: a tree of five files, `/B/f5` already existing locally with
non-zero size; the scanner discovers all five (no count for the pre-existing
file, whose iteration `continue`s before the enqueue), the workers drain the
queue. -/
def c5Trace : List Op :=
  [Op.scanEnqueue (pc "/A/f1"), Op.scanCount 10,
   Op.scanEnqueue (pc "/A/f2"), Op.scanCount 10,
   Op.scanEnqueue (pc "/A/f3"), Op.scanCount 10,
   Op.scanEnqueue (pc "/B/f4"), Op.scanCount 10,
   Op.scanEnqueue (pc "/B/f5"),
   Op.wClaimTask (pc "/A/f1"), Op.wSuccess (pc "/A/f1"),
   Op.wClaimTask (pc "/A/f2"), Op.wSuccess (pc "/A/f2"),
   Op.wClaimTask (pc "/A/f3"), Op.wSuccess (pc "/A/f3"),
   Op.wClaimTask (pc "/B/f4"), Op.wSuccess (pc "/B/f4")]

/-- Final state of the C5 scenario. -/
def c5Final : Sys := applyOps c5Trace (initSys (pc "dl") [pc "/B/f5"])

/-- C8 scenario prefix: one file discovered and counted, claimed, and failed
with a real error, so that `failed_downloads_dict` holds exactly one entry. -/
def c8Pre : List Op :=
  [Op.scanEnqueue (pc "/y/h"), Op.scanCount 3, Op.wClaimTask (pc "/y/h"),
   Op.wFail (pc "/y/h") (pc "err 550")]

/-- State just before the C8 retry. -/
def c8State : Sys := applyOps c8Pre (initSys (pc "dl") [])

/-- C7 scenario: scanner 1 connects, registers, drains the directory queue and
exits before the slow-connecting scanner 2 has registered; scanner 2 then
registers and exits in turn.  Transfer pool size 3. -/
def c7Trace : List ScOp := [ScOp.reg, ScOp.exitScan, ScOp.reg, ScOp.exitScan]

/-! ## Helper lemmas -/

theorem strPre_map (f : Char → Char) :
    ∀ a b : List Char, strPre a b = true → strPre (a.map f) (b.map f) = true := by
  intro a
  induction a with
  | nil => intro b _; simp [strPre]
  | cons x xs ih =>
    intro b h
    cases b with
    | nil => simp [strPre] at h
    | cons y ys =>
      simp only [strPre, Bool.and_eq_true, beq_iff_eq] at h
      simp only [List.map_cons, strPre, Bool.and_eq_true, beq_iff_eq]
      exact ⟨by rw [h.1], ih ys h.2⟩

theorem strHas_map (f : Char → Char) :
    ∀ a b : List Char, strHas a b = true → strHas (a.map f) (b.map f) = true := by
  intro a b
  induction b with
  | nil =>
    intro h
    cases a with
    | nil => exact rfl
    | cons x xs => simp [strHas, strPre] at h
  | cons y ys ih =>
    intro h
    simp only [strHas, Bool.or_eq_true] at h
    simp only [List.map_cons, strHas, Bool.or_eq_true]
    cases h with
    | inl h => exact Or.inl (by simpa using strPre_map f a (y :: ys) h)
    | inr h => exact Or.inr (ih h)

/-! ## C6 — local path mapping -/

/-- C6 counterexample: with remote base `/pub` and local root `dl`, the
ftputil scanner (lines 1635–1641) maps `/pub/a/x.mod` to `dl/pub/a/x.mod` —
it strips only the leading slash — while the claimed mapping (strip the
configured remote base, join the remainder) yields `dl/a/x.mod`. -/
theorem c6_counterexample :
    scanLocalPath (pc "dl") (pc "/pub/a/x.mod") = pc "dl/pub/a/x.mod" ∧
    specLocalPath (pc "dl") (pc "/pub") (pc "/pub/a/x.mod") = pc "dl/a/x.mod" ∧
    scanLocalPath (pc "dl") (pc "/pub/a/x.mod") ≠
      specLocalPath (pc "dl") (pc "/pub") (pc "/pub/a/x.mod") := by
  refine ⟨by decide, by decide, by decide⟩

/-- C6 amended: the ftputil scanner's mapping strips only the leading slash,
so it coincides with the claimed strip-the-base mapping exactly when the
configured remote base is `/` (for paths not starting with a doubled slash);
the alternate scan-and-download path (lines 2733–2738) strips the configured
base exactly as claimed. -/
theorem c6_amended :
    (∀ d p, strPre (pc "//") p = false →
        scanLocalPath d p = specLocalPath d (pc "/") p) ∧
    (∀ d base p, wsLocalPath d base p = specLocalPath d base p) := by
  constructor
  · intro d p h
    cases p with
    | nil => rfl
    | cons c cs =>
      by_cases hc : c = '/'
      · subst hc
        have h2 : strPre ['/'] cs = false := by
          simpa [strPre] using h
        have h3 : lstripSlash cs = cs := by
          cases cs with
          | nil => rfl
          | cons b bs =>
            have hb : (b == '/') = false := by
              cases hbeq : (b == '/') with
              | false => rfl
              | true =>
                have : b = '/' := eq_of_beq hbeq
                subst this
                simp [strPre] at h2
            simp [lstripSlash, List.dropWhile, hb]
        simp [scanLocalPath, scanLocalRel, specLocalPath, strPre, pc, h3]
      · have hcb : ('/' == c) = false := by
          cases hbe : ('/' == c) with
          | false => rfl
          | true => exact absurd (eq_of_beq hbe).symm hc
        have hcb2 : (c == '/') = false := by
          cases hbe : (c == '/') with
          | false => rfl
          | true => exact absurd (eq_of_beq hbe) hc
        simp [scanLocalPath, scanLocalRel, specLocalPath, strPre, pc, hcb, hcb2,
          lstripSlash, List.dropWhile]
  · intro d base p
    rfl

/-- Witness for C6 amended at concrete inputs. -/
theorem c6_amended_witness :
    scanLocalPath (pc "dl") (pc "/mods/x") = specLocalPath (pc "dl") (pc "/") (pc "/mods/x") ∧
    wsLocalPath (pc "dl") (pc "/mods") (pc "/mods/x") =
      specLocalPath (pc "dl") (pc "/mods") (pc "/mods/x") :=
  ⟨c6_amended.1 (pc "dl") (pc "/mods/x") (by decide),
   c6_amended.2 (pc "dl") (pc "/mods") (pc "/mods/x")⟩

/-! ## C4 — disguised success -/

/-- C4: when a claimed transfer raises with a message containing `200`
together with `TYPE` or `binary` (in particular the exact string
`200 TYPE is now 8-bit binary`), the worker records the file as a success —
it is moved to `downloaded`, `success` and `completed` are incremented — and
`failed` and the error log are untouched (lines 173–198). -/
theorem c4_disguised_success : ∀ (s : Sys) (p msg : List Char),
    p ∈ s.downloading →
    strHas (pc "200") msg = true →
    (strHas (pc "TYPE") msg = true ∨ strHas (pc "binary") msg = true) →
    applyOp s (Op.wFail p msg) = markSucceeded p s ∧
    (applyOp s (Op.wFail p msg)).failed = s.failed ∧
    (applyOp s (Op.wFail p msg)).errors = s.errors := by
  intro s p msg hmem h200 hTB
  have hd : isDisguisedSuccess msg = true := by
    unfold isDisguisedSuccess
    rw [h200]
    rcases hTB with h | h
    · have h2 := strHas_map Char.toUpper _ _ h
      have h3 : (pc "TYPE").map Char.toUpper = pc "TYPE" := by decide
      rw [h3] at h2
      simp [pyUpper, h2]
    · have h2 := strHas_map Char.toLower _ _ h
      have h3 : (pc "binary").map Char.toLower = pc "binary" := by decide
      rw [h3] at h2
      simp [pyLower, h2]
  have heq : applyOp s (Op.wFail p msg) = markSucceeded p s := by
    simp [applyOp, hmem, hd]
  refine ⟨heq, ?_, ?_⟩ <;> rw [heq] <;> rfl

/-- Witness for C4 at the spec's scenario string. -/
theorem c4_disguised_success_witness :
    applyOp { initSys (pc "dl") [] with downloading := [pc "/mods/song.mod"] }
        (Op.wFail (pc "/mods/song.mod") (pc "200 TYPE is now 8-bit binary")) =
      markSucceeded (pc "/mods/song.mod")
        { initSys (pc "dl") [] with downloading := [pc "/mods/song.mod"] } ∧
    (applyOp { initSys (pc "dl") [] with downloading := [pc "/mods/song.mod"] }
        (Op.wFail (pc "/mods/song.mod") (pc "200 TYPE is now 8-bit binary"))).failed =
      ({ initSys (pc "dl") [] with downloading := [pc "/mods/song.mod"] } : Sys).failed ∧
    (applyOp { initSys (pc "dl") [] with downloading := [pc "/mods/song.mod"] }
        (Op.wFail (pc "/mods/song.mod") (pc "200 TYPE is now 8-bit binary"))).errors =
      ({ initSys (pc "dl") [] with downloading := [pc "/mods/song.mod"] } : Sys).errors :=
  c4_disguised_success _ _ _ (by decide) (by decide) (Or.inl (by decide))

/-! ## C3 — completion debounce -/

/-- C3 (code bug): the class defines `update_progress` twice; the second
definition (line 2778) shadows the first, so the monitor the program actually
runs declares completion as soon as `completed >= total > 0`.  At an
observation where the scanner is still running, the queue holds three tasks
and two downloads are in flight, the effective monitor (`isCompleteV2`)
declares completion, while the claimed quorum monitor (`isCompleteV1`,
lines 2155–2248) is not even quiet there and resets its counter to zero. -/
theorem c3_shadowed_monitor_bug :
    isCompleteV2 { scannerDone := false, queueEmptyFlag := false, queueSize := 3,
                   allDone := false, downloadingCount := 2, total := 1,
                   completed := 1 } = true ∧
    isCompleteV1 { scannerDone := false, queueEmptyFlag := false, queueSize := 3,
                   allDone := false, downloadingCount := 2, total := 1,
                   completed := 1 } = false ∧
    (∀ k, tickV1 { scannerDone := false, queueEmptyFlag := false, queueSize := 3,
                   allDone := false, downloadingCount := 2, total := 1,
                   completed := 1 } k = (0, false)) := by
  refine ⟨rfl, rfl, ?_⟩
  intro k
  simp [tickV1, isCompleteV1]

/-! ## C10 — per-run directory dedup -/

theorem scanDirs_inv : ∀ (ds : List (List Char)) (st : ScanSt),
    st.listedLog.Nodup → (∀ x ∈ st.listedLog, x ∈ st.scanned) →
    (ds.foldl scanDirStep st).listedLog.Nodup ∧
      ∀ x ∈ (ds.foldl scanDirStep st).listedLog, x ∈ (ds.foldl scanDirStep st).scanned := by
  intro ds
  induction ds with
  | nil => intro st h1 h2; exact ⟨h1, h2⟩
  | cons d ds ih =>
    intro st h1 h2
    simp only [List.foldl_cons]
    by_cases hd : d ∈ st.scanned
    · have hstep : scanDirStep st d = st := by simp [scanDirStep, hd]
      rw [hstep]
      exact ih st h1 h2
    · have hstep : scanDirStep st d =
          { scanned := d :: st.scanned, listedLog := d :: st.listedLog } := by
        simp [scanDirStep, hd]
      rw [hstep]
      apply ih
      · exact List.nodup_cons.mpr ⟨fun hmem => hd (h2 d hmem), h1⟩
      · intro x hx
        rcases List.mem_cons.mp hx with rfl | hx
        · exact List.mem_cons_self _ _
        · exact List.mem_cons_of_mem _ (h2 x hx)

/-- C10: in one crawl session, across any interleaving of the scanners'
atomic check-and-insert steps on `scanned_dirs` (lines 1564–1570 under the
dedicated lock of line 513), the log of directories actually listed has no
duplicates: every directory path is listed at most once. -/
theorem c10_dir_dedup : ∀ ds : List (List Char),
    (runScanDirs ds).listedLog.Nodup := by
  intro ds
  have h := scanDirs_inv ds { scanned := [], listedLog := [] } (by simp) (by simp)
  exact h.1

/-! ## C7 — scanner termination protocol -/

/-- C7 counterexample: with transfer-pool size 3, the interleaving in which
scanner 1 registers and exits before scanner 2 registers makes *both* exits
decrement `scanner_count` to zero, so the terminal block runs twice: six
sentinels are enqueued and the flag is set twice — not "exactly one scanner"
and not "exactly M sentinels". -/
theorem c7_counterexample :
    runScOps 3 c7Trace (scInit 0) =
      { count := 0, done := true, pills := 6, flagSets := 2 } ∧
    (runScOps 3 c7Trace (scInit 0)).pills ≠ 3 ∧
    (runScOps 3 c7Trace (scInit 0)).flagSets ≠ 1 := by
  refine ⟨by decide, by decide, by decide⟩

theorem applyScOp_exit_pos (m : Nat) (c : Int) (b : Bool) (pl fl : Nat)
    (h : c - 1 = 0) :
    applyScOp m { count := c, done := b, pills := pl, flagSets := fl } ScOp.exitScan =
      { count := 0, done := true, pills := pl + m, flagSets := fl + 1 } := by
  show (if c - 1 = 0 then
          ({ count := c - 1, done := true, pills := pl + m, flagSets := fl + 1 } : ScPro)
        else { count := c - 1, done := b, pills := pl, flagSets := fl }) =
      { count := 0, done := true, pills := pl + m, flagSets := fl + 1 }
  rw [if_pos h, h]

theorem applyScOp_exit_neg (m : Nat) (c : Int) (b : Bool) (pl fl : Nat)
    (h : ¬(c - 1 = 0)) :
    applyScOp m { count := c, done := b, pills := pl, flagSets := fl } ScOp.exitScan =
      { count := c - 1, done := b, pills := pl, flagSets := fl } := by
  show (if c - 1 = 0 then
          ({ count := c - 1, done := true, pills := pl + m, flagSets := fl + 1 } : ScPro)
        else { count := c - 1, done := b, pills := pl, flagSets := fl }) =
      { count := c - 1, done := b, pills := pl, flagSets := fl }
  rw [if_neg h]

theorem scExit_run : ∀ (k m : Nat) (b : Bool) (pl fl : Nat),
    runScOps m (List.replicate (k + 1) ScOp.exitScan)
        { count := ((k : Int) + 1), done := b, pills := pl, flagSets := fl } =
      { count := 0, done := true, pills := pl + m, flagSets := fl + 1 } := by
  intro k
  induction k with
  | zero =>
    intro m b pl fl
    unfold runScOps
    simp only [List.replicate, List.foldl_cons, List.foldl_nil]
    exact applyScOp_exit_pos m (((0 : Nat) : Int) + 1) b pl fl (by norm_num)
  | succ k ih =>
    intro m b pl fl
    rw [List.replicate_succ]
    unfold runScOps
    simp only [List.foldl_cons]
    rw [applyScOp_exit_neg m (((k + 1 : Nat) : Int) + 1) b pl fl (by push_cast; omega)]
    have harith : (((k + 1 : Nat) : Int) + 1) - 1 = (k : Int) + 1 := by push_cast; ring
    rw [harith]
    exact ih m b pl fl

/-- C7 amended: provided every scanner registers before any scanner exits,
the claim holds: starting from `scanner_count = n`, the `n` exits emit the
flag-and-sentinels block exactly once — by the single exit that decrements
the counter to zero — enqueuing exactly `m` sentinels; an exit that leaves
the counter positive emits nothing, on the normal and error paths alike.
Without that proviso the protocol double-fires (see the counterexample). -/
theorem c7_amended :
    (∀ n m : Nat, 1 ≤ n →
        runScOps m (List.replicate n ScOp.exitScan) (scInit n) =
          { count := 0, done := true, pills := m, flagSets := 1 }) ∧
    (∀ (m : Nat) (s : ScPro), 2 ≤ s.count →
        (applyScOp m s ScOp.exitScan).pills = s.pills ∧
        (applyScOp m s ScOp.exitScan).flagSets = s.flagSets ∧
        (applyScOp m s ScOp.exitScan).done = s.done) := by
  constructor
  · intro n m h
    obtain ⟨k, rfl⟩ : ∃ k, n = k + 1 := ⟨n - 1, by omega⟩
    have hrun := scExit_run k m false 0 0
    have hinit : scInit (k + 1) =
        { count := ((k : Int) + 1), done := false, pills := 0, flagSets := 0 } := by
      unfold scInit
      have : ((k + 1 : Nat) : Int) = (k : Int) + 1 := by push_cast; ring
      rw [this]
    rw [hinit, hrun]
    norm_num
  · intro m s h
    unfold applyScOp
    rw [if_neg (by omega)]
    exact ⟨rfl, rfl, rfl⟩

/-- Witness for C7 amended: two pre-registered scanners, pool size 4, and a
non-final exit from count 5. -/
theorem c7_amended_witness :
    runScOps 4 (List.replicate 2 ScOp.exitScan) (scInit 2) =
      { count := 0, done := true, pills := 4, flagSets := 1 } ∧
    ((applyScOp 4 { count := 5, done := false, pills := 0, flagSets := 0 }
        ScOp.exitScan).pills = 0 ∧
     (applyScOp 4 { count := 5, done := false, pills := 0, flagSets := 0 }
        ScOp.exitScan).flagSets = 0 ∧
     (applyScOp 4 { count := 5, done := false, pills := 0, flagSets := 0 }
        ScOp.exitScan).done = false) :=
  ⟨c7_amended.1 2 4 (by decide), c7_amended.2 4 _ (by decide)⟩

/-! ## C5 — pre-existing-file scenario -/

/-- C5 counterexample: in the five-file scenario with one file pre-existing
locally, the run does **not** end with `total = 5` and `success = 5`: the
scanner's pre-existing branch (lines 1643–1650) registers the file in
`downloaded_paths` and `continue`s without incrementing `total`, `success` or
`completed`. -/
theorem c5_counterexample :
    ¬ (c5Final.total = 5 ∧ c5Final.success = 5 ∧ c5Final.failed = 0) := by decide

/-- C5 amended: the scenario ends with `total = 4`, `success = 4`,
`failed = 0`: the pre-existing file is registered as downloaded without any
transfer and without contributing to any count, and the completion predicate
holds at the final state. -/
theorem c5_amended :
    c5Final.total = 4 ∧ c5Final.success = 4 ∧ c5Final.failed = 0 ∧
    c5Final.completed = 4 ∧ pc "/B/f5" ∈ c5Final.downloaded ∧
    c5Final.queue = [] ∧ c5Final.downloading = [] ∧
    isCompleteV1 (obsOf c5Final true true) = true := by decide

/-! ## C1 — dedup invariant (counterexample part) -/

/-- C1 counterexample: after the reachable interleaving `c1Trace` — scan,
claim, begin streaming, duplicate re-enqueue via `_retry_selected_file`,
duplicate dequeued by a second worker with the partial file non-empty — the
path `/m/f` is simultaneously in `downloading_paths` and `downloaded_paths`,
because the pre-existing branch (lines 112–126) never consults
`downloading_paths`. -/
theorem c1_counterexample :
    pc "/m/f" ∈ (applyOps c1Trace (initSys (pc "dl") [])).downloading ∧
    pc "/m/f" ∈ (applyOps c1Trace (initSys (pc "dl") [])).downloaded := by decide

/-! ## C2 — count invariant (counterexample part) -/

/-- C2 counterexample, two independent violations.  After one file fails and
`retry_failed_downloads` runs (`c2Trace`), `completed = 1` while
`success + failed = 0` — the retry path (lines 2108–2111) decrements `failed`
without touching `completed`.  And with no retry at all (`c2WindowTrace`),
a worker that dequeues, claims and completes a file between the scanner's
`queue.put` (line 1653) and its `total` increment (line 1681) — separate lock
regions — makes `completed = 1 > total = 0` observable. -/
theorem c2_counterexample :
    (applyOps c2Trace (initSys (pc "dl") [])).completed = 1 ∧
    (applyOps c2Trace (initSys (pc "dl") [])).success +
      (applyOps c2Trace (initSys (pc "dl") [])).failed = 0 ∧
    (applyOps c2WindowTrace (initSys (pc "dl") [])).completed = 1 ∧
    (applyOps c2WindowTrace (initSys (pc "dl") [])).total = 0 := by decide

/-! ## C9 — worker-side pre-existence check -/

/-- C9: when a worker dequeues a task whose local destination already exists
with non-zero size (lines 112–126), it performs no transfer: under the stats
lock, if the path is not yet in `downloaded_paths` it is added there and
`completed` and `success` are incremented exactly once, `total` and `failed`
untouched; if the path is already in `downloaded_paths` (e.g. a second worker
dequeuing a duplicate task) nothing is counted and only the task is
consumed. -/
theorem c9_worker_preexisting :
    ∀ (s : Sys) (p lp : List Char) (q' : List (List Char × List Char)),
    p ∈ s.localNonempty → takeTask p s.queue = some (lp, q') →
    ((p ∉ s.downloaded →
        (applyOp s (Op.wSkipTask p)).downloaded = p :: s.downloaded ∧
        (applyOp s (Op.wSkipTask p)).completed = s.completed + 1 ∧
        (applyOp s (Op.wSkipTask p)).success = s.success + 1 ∧
        (applyOp s (Op.wSkipTask p)).failed = s.failed ∧
        (applyOp s (Op.wSkipTask p)).total = s.total ∧
        (applyOp s (Op.wSkipTask p)).queue = q') ∧
     (p ∈ s.downloaded →
        (applyOp s (Op.wSkipTask p)).queue = q' ∧
        (applyOp s (Op.wSkipTask p)).downloaded = s.downloaded ∧
        (applyOp s (Op.wSkipTask p)).completed = s.completed ∧
        (applyOp s (Op.wSkipTask p)).success = s.success ∧
        (applyOp s (Op.wSkipTask p)).total = s.total)) := by
  intro s p lp q' hloc htake
  constructor
  · intro hnd
    simp [applyOp, htake, hloc, hnd]
  · intro hd
    simp [applyOp, htake, hloc, hd]

/-- Witness for C9: first processing counts once; a duplicate dequeue of an
already-downloaded path counts nothing. -/
theorem c9_worker_preexisting_witness :
    ((pc "/w/k" ∉ ({ initSys (pc "dl") [pc "/w/k"] with
          queue := [(pc "/w/k", pc "dl/w/k")] } : Sys).downloaded →
        (applyOp { initSys (pc "dl") [pc "/w/k"] with
            queue := [(pc "/w/k", pc "dl/w/k")] } (Op.wSkipTask (pc "/w/k"))).downloaded =
          pc "/w/k" :: ({ initSys (pc "dl") [pc "/w/k"] with
            queue := [(pc "/w/k", pc "dl/w/k")] } : Sys).downloaded ∧
        (applyOp { initSys (pc "dl") [pc "/w/k"] with
            queue := [(pc "/w/k", pc "dl/w/k")] } (Op.wSkipTask (pc "/w/k"))).completed =
          ({ initSys (pc "dl") [pc "/w/k"] with
            queue := [(pc "/w/k", pc "dl/w/k")] } : Sys).completed + 1 ∧
        (applyOp { initSys (pc "dl") [pc "/w/k"] with
            queue := [(pc "/w/k", pc "dl/w/k")] } (Op.wSkipTask (pc "/w/k"))).success =
          ({ initSys (pc "dl") [pc "/w/k"] with
            queue := [(pc "/w/k", pc "dl/w/k")] } : Sys).success + 1 ∧
        (applyOp { initSys (pc "dl") [pc "/w/k"] with
            queue := [(pc "/w/k", pc "dl/w/k")] } (Op.wSkipTask (pc "/w/k"))).failed =
          ({ initSys (pc "dl") [pc "/w/k"] with
            queue := [(pc "/w/k", pc "dl/w/k")] } : Sys).failed ∧
        (applyOp { initSys (pc "dl") [pc "/w/k"] with
            queue := [(pc "/w/k", pc "dl/w/k")] } (Op.wSkipTask (pc "/w/k"))).total =
          ({ initSys (pc "dl") [pc "/w/k"] with
            queue := [(pc "/w/k", pc "dl/w/k")] } : Sys).total ∧
        (applyOp { initSys (pc "dl") [pc "/w/k"] with
            queue := [(pc "/w/k", pc "dl/w/k")] } (Op.wSkipTask (pc "/w/k"))).queue = []) ∧
     (pc "/w/k" ∈ ({ initSys (pc "dl") [pc "/w/k"] with
          queue := [(pc "/w/k", pc "dl/w/k")] } : Sys).downloaded →
        (applyOp { initSys (pc "dl") [pc "/w/k"] with
            queue := [(pc "/w/k", pc "dl/w/k")] } (Op.wSkipTask (pc "/w/k"))).queue = [] ∧
        (applyOp { initSys (pc "dl") [pc "/w/k"] with
            queue := [(pc "/w/k", pc "dl/w/k")] } (Op.wSkipTask (pc "/w/k"))).downloaded =
          ({ initSys (pc "dl") [pc "/w/k"] with
            queue := [(pc "/w/k", pc "dl/w/k")] } : Sys).downloaded ∧
        (applyOp { initSys (pc "dl") [pc "/w/k"] with
            queue := [(pc "/w/k", pc "dl/w/k")] } (Op.wSkipTask (pc "/w/k"))).completed =
          ({ initSys (pc "dl") [pc "/w/k"] with
            queue := [(pc "/w/k", pc "dl/w/k")] } : Sys).completed ∧
        (applyOp { initSys (pc "dl") [pc "/w/k"] with
            queue := [(pc "/w/k", pc "dl/w/k")] } (Op.wSkipTask (pc "/w/k"))).success =
          ({ initSys (pc "dl") [pc "/w/k"] with
            queue := [(pc "/w/k", pc "dl/w/k")] } : Sys).success ∧
        (applyOp { initSys (pc "dl") [pc "/w/k"] with
            queue := [(pc "/w/k", pc "dl/w/k")] } (Op.wSkipTask (pc "/w/k"))).total =
          ({ initSys (pc "dl") [pc "/w/k"] with
            queue := [(pc "/w/k", pc "dl/w/k")] } : Sys).total)) :=
  c9_worker_preexisting _ (pc "/w/k") (pc "dl/w/k") [] (by decide) (by decide)

/-! ## C1 — dedup invariant (amended part) -/

theorem mem_addPath {p q : List Char} {l : List (List Char)} :
    q ∈ addPath p l ↔ q = p ∨ q ∈ l := by
  unfold addPath
  split
  · next h =>
    constructor
    · exact Or.inr
    · rintro (rfl | hq)
      · exact h
      · exact hq
  · exact List.mem_cons

theorem disjInv_markSucceeded {s : Sys} {p : List Char} (h : DisjInv s) :
    DisjInv (markSucceeded p s) := by
  obtain ⟨hnd, hdisj⟩ := h
  constructor
  · exact hnd.erase p
  · intro q hq
    have hq' : q ≠ p ∧ q ∈ s.downloading := (List.Nodup.mem_erase_iff hnd).mp hq
    intro hmem
    rcases mem_addPath.mp hmem with rfl | hmem2
    · exact hq'.1 rfl
    · exact hdisj q hq'.2 hmem2

theorem retryFold_downloading : ∀ (l : List (List Char × List Char)) (s : Sys),
    (l.foldl retryStep s).downloading = s.downloading := by
  intro l
  induction l with
  | nil => intro s; rfl
  | cons t ts ih =>
    intro s
    simp only [List.foldl_cons]
    rw [ih]
    rfl

theorem retryFold_downloaded_sub :
    ∀ (l : List (List Char × List Char)) (s : Sys) (q : List Char),
    q ∈ (l.foldl retryStep s).downloaded → q ∈ s.downloaded := by
  intro l
  induction l with
  | nil => intro s q h; exact h
  | cons t ts ih =>
    intro s q h
    have h2 := ih (retryStep s t) q (by simpa [List.foldl_cons] using h)
    exact List.mem_of_mem_erase h2

/-- C1 amended: every atomic operation of the engine preserves the invariant
`downloading ∩ downloaded = ∅` (with `downloading` duplicate-free) **except**
the worker's pre-existing-file branch, which preserves it only when the
dequeued path is not currently in `downloading` — that branch (lines 112–126)
never consults `downloading_paths`.  Moreover the claim step of lines 128–147
is an atomic check-and-insert under the stats lock: a path already present in
`downloading` is never inserted again, so at most one worker at a time holds
a path there. -/
theorem c1_amended :
    (∀ (s : Sys) (op : Op), DisjInv s → skipSafeB op s = true →
        DisjInv (applyOp s op)) ∧
    (∀ (s : Sys) (p : List Char), p ∈ s.downloading →
        (applyOp s (Op.wClaimTask p)).downloading = s.downloading) := by
  constructor
  · intro s op hinv hsafe
    obtain ⟨hnd, hdisj⟩ := hinv
    cases op with
    | scanEnqueue p =>
      simp only [applyOp]
      split
      · exact ⟨hnd, hdisj⟩
      · next h1 =>
        split
        · exact ⟨hnd, hdisj⟩
        · split
          · refine ⟨hnd, ?_⟩
            intro q hq hmem
            rcases mem_addPath.mp hmem with rfl | hmem2
            · exact h1 (Or.inr hq)
            · exact hdisj q hq hmem2
          · exact ⟨hnd, hdisj⟩
    | scanCount sz =>
      simp only [applyOp]
      split
      · exact ⟨hnd, hdisj⟩
      · exact ⟨hnd, hdisj⟩
    | wSkipTask p =>
      have hps : p ∉ s.downloading := by simpa [skipSafeB] using hsafe
      simp only [applyOp]
      split
      · split
        · split
          · exact ⟨hnd, hdisj⟩
          · refine ⟨hnd, ?_⟩
            intro q hq hmem
            rcases List.mem_cons.mp hmem with rfl | hmem2
            · exact hps hq
            · exact hdisj q hq hmem2
        · exact ⟨hnd, hdisj⟩
      · exact ⟨hnd, hdisj⟩
    | wClaimTask p =>
      simp only [applyOp]
      split
      · split
        · exact ⟨hnd, hdisj⟩
        · split
          · exact ⟨hnd, hdisj⟩
          · next hno =>
            constructor
            · exact List.nodup_cons.mpr ⟨fun hmem => hno (Or.inr hmem), hnd⟩
            · intro q hq hmem
              rcases List.mem_cons.mp hq with rfl | hq2
              · exact hno (Or.inl hmem)
              · exact hdisj q hq2 hmem
      · exact ⟨hnd, hdisj⟩
    | wStream p =>
      simp only [applyOp]
      split
      · exact ⟨hnd, hdisj⟩
      · exact ⟨hnd, hdisj⟩
    | wSuccess p =>
      simp only [applyOp]
      split
      · exact disjInv_markSucceeded ⟨hnd, hdisj⟩
      · exact ⟨hnd, hdisj⟩
    | wFail p msg =>
      simp only [applyOp]
      split
      · split
        · exact disjInv_markSucceeded ⟨hnd, hdisj⟩
        · refine ⟨hnd.erase p, ?_⟩
          intro q hq hmem
          exact hdisj q (List.mem_of_mem_erase hq) hmem
      · exact ⟨hnd, hdisj⟩
    | retrySel p =>
      exact ⟨hnd, hdisj⟩
    | retryAll =>
      have hdl := retryFold_downloading s.failedDict s
      constructor
      · show (s.failedDict.foldl retryStep s).downloading.Nodup
        rw [hdl]
        exact hnd
      · intro q hq hmem
        have hq2 : q ∈ s.downloading := by
          have hq3 : q ∈ (s.failedDict.foldl retryStep s).downloading := hq
          rwa [hdl] at hq3
        exact hdisj q hq2 (retryFold_downloaded_sub s.failedDict s q hmem)
  · intro s p hp
    simp only [applyOp]
    split
    · split
      · rfl
      · split
        · rfl
        · next hno => exact absurd (Or.inr hp) hno
    · rfl

/-- Witness for C1 amended: a success step from a state with one in-flight
path preserves the invariant, and a claim attempt on an already-claimed path
leaves `downloading` unchanged. -/
theorem c1_amended_witness :
    DisjInv (applyOp { initSys (pc "dl") [] with downloading := [pc "/a/q"] }
        (Op.wSuccess (pc "/a/q"))) ∧
    (applyOp { initSys (pc "dl") [] with
          downloading := [pc "/a/q"],
          queue := [(pc "/a/q", pc "dl/a/q")] }
        (Op.wClaimTask (pc "/a/q"))).downloading =
      ({ initSys (pc "dl") [] with
          downloading := [pc "/a/q"],
          queue := [(pc "/a/q", pc "dl/a/q")] } : Sys).downloading :=
  ⟨c1_amended.1 _ _ (by decide) (by decide), c1_amended.2 _ _ (by decide)⟩

/-! ## C2 — count invariant (amended part) -/

theorem takeTask_length : ∀ (q : List (List Char × List Char)) (p lp : List Char)
    (q' : List (List Char × List Char)),
    takeTask p q = some (lp, q') → q.length = q'.length + 1 := by
  intro q
  induction q with
  | nil => intro p lp q' h; simp [takeTask] at h
  | cons t ts ih =>
    intro p lp q' h
    unfold takeTask at h
    split at h
    · injection h with h2
      injection h2 with h3 h4
      subst h4
      simp
    · cases hrec : takeTask p ts with
      | none =>
        rw [hrec] at h
        simp at h
      | some pr =>
        obtain ⟨lp2, ts2⟩ := pr
        rw [hrec] at h
        injection h with h2
        injection h2 with h3 h4
        subst h4
        have hlen := ih p lp2 ts2 hrec
        simp only [List.length_cons]
        omega

theorem countOk_applyOp : ∀ (s : Sys) (op : Op), isRetryOp op = false →
    CountOk s → CountOk (applyOp s op) := by
  intro s op hro h
  obtain ⟨he, hle⟩ := h
  cases op with
  | scanEnqueue p =>
    simp only [applyOp]
    split
    · exact ⟨he, hle⟩
    · split
      · exact ⟨he, hle⟩
      · split
        · exact ⟨he, hle⟩
        · refine ⟨he, ?_⟩
          show s.completed + (s.queue ++ [(p, scanLocalPath s.localDir p)]).length +
              s.downloading.length ≤ s.total + (s.pendingCount + 1)
          rw [List.length_append]
          simp only [List.length_cons, List.length_nil]
          omega
  | scanCount sz =>
    simp only [applyOp]
    split
    · next hpend =>
      refine ⟨he, ?_⟩
      show s.completed + s.queue.length + s.downloading.length ≤
          (s.total + 1) + (s.pendingCount - 1)
      omega
    · exact ⟨he, hle⟩
  | wSkipTask p =>
    simp only [applyOp]
    split
    · next lp q' heq =>
      have hlen := takeTask_length s.queue p lp q' heq
      split
      · split
        · refine ⟨he, ?_⟩
          show s.completed + q'.length + s.downloading.length ≤ s.total + s.pendingCount
          omega
        · constructor
          · show s.completed + 1 = s.success + 1 + s.failed
            omega
          · show s.completed + 1 + q'.length + s.downloading.length ≤
                s.total + s.pendingCount
            omega
      · exact ⟨he, hle⟩
    · exact ⟨he, hle⟩
  | wClaimTask p =>
    simp only [applyOp]
    split
    · next lp q' heq =>
      have hlen := takeTask_length s.queue p lp q' heq
      split
      · exact ⟨he, hle⟩
      · split
        · refine ⟨he, ?_⟩
          show s.completed + q'.length + s.downloading.length ≤ s.total + s.pendingCount
          omega
        · refine ⟨he, ?_⟩
          show s.completed + q'.length + (p :: s.downloading).length ≤
              s.total + s.pendingCount
          simp only [List.length_cons]
          omega
    · exact ⟨he, hle⟩
  | wStream p =>
    simp only [applyOp]
    split
    · exact ⟨he, hle⟩
    · exact ⟨he, hle⟩
  | wSuccess p =>
    simp only [applyOp]
    split
    · next hp =>
      have hdl : 0 < s.downloading.length := List.length_pos_of_mem hp
      have hel : (s.downloading.erase p).length = s.downloading.length - 1 :=
        List.length_erase_of_mem hp
      constructor
      · show s.completed + 1 = s.success + 1 + s.failed
        omega
      · show s.completed + 1 + s.queue.length + (s.downloading.erase p).length ≤
            s.total + s.pendingCount
        omega
    · exact ⟨he, hle⟩
  | wFail p msg =>
    simp only [applyOp]
    split
    · next hp =>
      have hdl : 0 < s.downloading.length := List.length_pos_of_mem hp
      have hel : (s.downloading.erase p).length = s.downloading.length - 1 :=
        List.length_erase_of_mem hp
      split
      · constructor
        · show s.completed + 1 = s.success + 1 + s.failed
          omega
        · show s.completed + 1 + s.queue.length + (s.downloading.erase p).length ≤
              s.total + s.pendingCount
          omega
      · constructor
        · show s.completed + 1 = s.success + (s.failed + 1)
          omega
        · show s.completed + 1 + s.queue.length + (s.downloading.erase p).length ≤
              s.total + s.pendingCount
          omega
    · exact ⟨he, hle⟩
  | retrySel p => simp [isRetryOp] at hro
  | retryAll => simp [isRetryOp] at hro

theorem countOk_applyOps : ∀ (ops : List Op) (s : Sys),
    (∀ op ∈ ops, isRetryOp op = false) → CountOk s → CountOk (applyOps ops s) := by
  intro ops
  induction ops with
  | nil => intro s _ h; exact h
  | cons op ops ih =>
    intro s hall h
    simp only [applyOps, List.foldl_cons]
    exact ih (applyOp s op) (fun o ho => hall o (List.mem_cons_of_mem _ ho))
      (countOk_applyOp s op (hall op (List.mem_cons_self _ _)) h)

theorem retryFold_counts : ∀ (l : List (List Char × List Char)) (s : Sys),
    (l.foldl retryStep s).completed = s.completed ∧
    (l.foldl retryStep s).success = s.success ∧
    (l.foldl retryStep s).failed = s.failed ∧
    (l.foldl retryStep s).total = s.total := by
  intro l
  induction l with
  | nil => intro s; exact ⟨rfl, rfl, rfl, rfl⟩
  | cons t ts ih =>
    intro s
    simp only [List.foldl_cons]
    exact ih (retryStep s t)

/-- C2 amended: `completed = success + failed` holds, and
`completed + queued + in-flight` stays bounded by `total` plus the number of
scanner iterations currently between their `queue.put` (line 1653) and their
`total` increment (line 1681), at every observation point of every execution
that performs no retry operation; consequently `completed ≤ total` holds at
every retry-free observation at which no scanner is inside that window
(`pendingCount = 0`, in particular whenever scanning is quiescent), while
inside the window `completed` can exceed `total` with no retry at all.  The
retry path (lines 2108–2111) decrements `failed` by the number of retried
paths without decrementing `completed`, so immediately after a `retryAll`
the counters satisfy
`completed = success + failed + min (number retried) failed` instead. -/
theorem c2_amended :
    (∀ (dir : List Char) (pre : List (List Char)) (ops : List Op),
        (∀ op ∈ ops, isRetryOp op = false) →
        CountOk (applyOps ops (initSys dir pre))) ∧
    (∀ s : Sys, CountOk s → s.pendingCount = 0 →
        s.completed = s.success + s.failed ∧ s.completed ≤ s.total) ∧
    (∀ s : Sys, s.completed = s.success + s.failed →
        (applyOp s Op.retryAll).completed =
          (applyOp s Op.retryAll).success + (applyOp s Op.retryAll).failed +
            min s.failedDict.length s.failed) := by
  refine ⟨?_, ?_, ?_⟩
  · intro dir pre ops hall
    exact countOk_applyOps ops (initSys dir pre) hall ⟨rfl, Nat.le_refl 0⟩
  · intro s hok hpend
    obtain ⟨he, hle⟩ := hok
    rw [hpend] at hle
    exact ⟨he, by omega⟩
  · intro s he
    have hc := retryFold_counts s.failedDict s
    show (s.failedDict.foldl retryStep s).completed =
        (s.failedDict.foldl retryStep s).success +
          ((s.failedDict.foldl retryStep s).failed - s.failedDict.length) +
          min s.failedDict.length s.failed
    rw [hc.1, hc.2.1, hc.2.2.1]
    omega

/-- Witness for C2 amended: a retry-free four-step execution satisfies the
invariant, its final state (scanner quiescent) satisfies the plain count
invariant, and a retry from a consistent one-failure state lands in the
shifted relation. -/
theorem c2_amended_witness :
    CountOk (applyOps [Op.scanEnqueue (pc "/w/a"), Op.scanCount 5,
        Op.wClaimTask (pc "/w/a"), Op.wSuccess (pc "/w/a")] (initSys (pc "dl") [])) ∧
    ((applyOps [Op.scanEnqueue (pc "/w/a"), Op.scanCount 5,
        Op.wClaimTask (pc "/w/a"), Op.wSuccess (pc "/w/a")]
          (initSys (pc "dl") [])).completed =
      (applyOps [Op.scanEnqueue (pc "/w/a"), Op.scanCount 5,
        Op.wClaimTask (pc "/w/a"), Op.wSuccess (pc "/w/a")]
          (initSys (pc "dl") [])).success +
        (applyOps [Op.scanEnqueue (pc "/w/a"), Op.scanCount 5,
          Op.wClaimTask (pc "/w/a"), Op.wSuccess (pc "/w/a")]
            (initSys (pc "dl") [])).failed ∧
      (applyOps [Op.scanEnqueue (pc "/w/a"), Op.scanCount 5,
        Op.wClaimTask (pc "/w/a"), Op.wSuccess (pc "/w/a")]
          (initSys (pc "dl") [])).completed ≤
        (applyOps [Op.scanEnqueue (pc "/w/a"), Op.scanCount 5,
          Op.wClaimTask (pc "/w/a"), Op.wSuccess (pc "/w/a")]
            (initSys (pc "dl") [])).total) ∧
    (applyOp { initSys (pc "dl") [] with
        completed := 1, failed := 1, total := 1,
        failedDict := [(pc "/w/b", pc "dl/w/b")] } Op.retryAll).completed =
      (applyOp { initSys (pc "dl") [] with
          completed := 1, failed := 1, total := 1,
          failedDict := [(pc "/w/b", pc "dl/w/b")] } Op.retryAll).success +
        (applyOp { initSys (pc "dl") [] with
            completed := 1, failed := 1, total := 1,
            failedDict := [(pc "/w/b", pc "dl/w/b")] } Op.retryAll).failed +
        min ({ initSys (pc "dl") [] with
            completed := 1, failed := 1, total := 1,
            failedDict := [(pc "/w/b", pc "dl/w/b")] } : Sys).failedDict.length
          ({ initSys (pc "dl") [] with
            completed := 1, failed := 1, total := 1,
            failedDict := [(pc "/w/b", pc "dl/w/b")] } : Sys).failed :=
  ⟨c2_amended.1 _ _ _ (by decide), c2_amended.2.1 _ (by decide) (by decide),
   c2_amended.2.2 _ (by decide)⟩

/-! ## C8 — retry re-admission -/

theorem strPre_append_self : ∀ a b : List Char, strPre a (a ++ b) = true := by
  intro a b
  induction a with
  | nil => rfl
  | cons x xs ih => simp [strPre, ih]

theorem firstSeg_errString : ∀ (p msg : List Char), ':' ∉ p →
    firstSeg (errString p msg) = p := by
  intro p msg
  induction p with
  | nil =>
    intro _
    simp [errString, firstSeg, pc, List.takeWhile]
  | cons x xs ih =>
    intro h
    have hx : x ≠ ':' := fun he => h (he ▸ List.mem_cons_self x xs)
    have hxs : ':' ∉ xs := fun hm => h (List.mem_cons_of_mem _ hm)
    have hbx : (x == ':') = false := by
      cases hbe : (x == ':') with
      | false => rfl
      | true => exact absurd (eq_of_beq hbe) hx
    show List.takeWhile (fun c => !(c == ':')) (x :: (xs ++ pc ": " ++ msg)) = x :: xs
    rw [List.takeWhile_cons]
    simp only [hbx, Bool.not_false, if_true]
    have hih : firstSeg (errString xs msg) = xs := ih hxs
    simp only [firstSeg, errString] at hih
    rw [hih]

/-- C8 counterexample: after one discovered file fails and
`retry_failed_downloads` runs (`c8Pre` then `retryAll`), the claim's clause
"keeping completed = success + failed consistent" is false: `completed = 1`
while `success + failed = 0`, because lines 2108–2111 decrement `failed`
without decrementing `completed`. -/
theorem c8_counterexample :
    (applyOp c8State Op.retryAll).completed = 1 ∧
    (applyOp c8State Op.retryAll).success + (applyOp c8State Op.retryAll).failed = 0 := by
  decide

/-- C8 amended: retrying the single failed path re-enqueues exactly one task
for it directly onto the transfer queue (discovery untouched — `total` is
unchanged), decrements `failed` by one, removes its stale error record (for
paths containing no colon, which the `err.split(':')[0]` bookkeeping
requires), clears the failed dict, and leaves the path absent from
`downloaded`; but `completed` and `success` are unchanged, so
`completed = success + failed` does **not** survive the retry. -/
theorem c8_amended : ∀ (s : Sys) (p lp msg : List Char),
    s.failedDict = [(p, lp)] → s.downloaded.Nodup → ':' ∉ p →
    (applyOp s Op.retryAll).queue = s.queue ++ [(p, lp)] ∧
    (applyOp s Op.retryAll).failed = s.failed - 1 ∧
    (applyOp s Op.retryAll).completed = s.completed ∧
    (applyOp s Op.retryAll).success = s.success ∧
    (applyOp s Op.retryAll).total = s.total ∧
    p ∉ (applyOp s Op.retryAll).downloaded ∧
    (errString p msg ∈ s.errors → errString p msg ∉ (applyOp s Op.retryAll).errors) ∧
    (applyOp s Op.retryAll).failedDict = [] := by
  intro s p lp msg hd hnd hcol
  have heq : applyOp s Op.retryAll =
      { retryStep s (p, lp) with
        failed := (retryStep s (p, lp)).failed - 1, failedDict := [] } := by
    show { s.failedDict.foldl retryStep s with
           failed := (s.failedDict.foldl retryStep s).failed - s.failedDict.length,
           failedDict := [] } = _
    rw [hd]
    rfl
  rw [heq]
  refine ⟨rfl, rfl, rfl, rfl, rfl, ?_, ?_, rfl⟩
  · intro hmem
    have hmem2 : p ∈ s.downloaded.erase p := hmem
    exact ((List.Nodup.mem_erase_iff hnd).mp hmem2).1 rfl
  · intro hmem hin
    have hin2 : errString p msg ∈ retryErrFilter p s.errors := hin
    unfold retryErrFilter at hin2
    have hany : s.errors.any (fun e => firstSeg e == p) = true := by
      refine List.any_eq_true.mpr ⟨errString p msg, hmem, ?_⟩
      rw [firstSeg_errString p msg hcol]
      exact beq_self_eq_true p
    rw [if_pos hany] at hin2
    have hflt := (List.mem_filter.mp hin2).2
    have hES : errString p msg = (p ++ [':']) ++ (' ' :: msg) := by
      simp [errString, pc]
    have hpre : strPre (p ++ [':']) (errString p msg) = true := by
      rw [hES]
      exact strPre_append_self _ _
    rw [hpre] at hflt
    simp at hflt

/-- Witness for C8 amended at the concrete one-failure state `c8State`. -/
theorem c8_amended_witness :
    (applyOp c8State Op.retryAll).queue = c8State.queue ++ [(pc "/y/h", pc "dl/y/h")] ∧
    (applyOp c8State Op.retryAll).failed = c8State.failed - 1 ∧
    (applyOp c8State Op.retryAll).completed = c8State.completed ∧
    (applyOp c8State Op.retryAll).success = c8State.success ∧
    (applyOp c8State Op.retryAll).total = c8State.total ∧
    pc "/y/h" ∉ (applyOp c8State Op.retryAll).downloaded ∧
    (errString (pc "/y/h") (pc "err 550") ∈ c8State.errors →
      errString (pc "/y/h") (pc "err 550") ∉ (applyOp c8State Op.retryAll).errors) ∧
    (applyOp c8State Op.retryAll).failedDict = [] :=
  c8_amended c8State (pc "/y/h") (pc "dl/y/h") (pc "err 550")
    (by decide) (by decide) (by decide)
